import Mathlib

/-!
Shallow embedding of `systemrdl/compiler.py` (class `RDLCompiler`):
the unit-compile boundary `compile_file` and the elaboration pipeline
`elaborate`.  Only `compiler.py` is in scope as source code; the modules
it calls (the ANTLR front end, `core.ComponentVisitor.RootVisitor`,
`walker.RDLWalker`, the elaboration/validation listeners, `messages`,
`node.Node`) are external collaborators and are modelled from the spec
where their behaviour matters, each marked `Modelled from the spec:`.
-/

namespace SystemRDL

/-- Component type categories (the subclasses of `component.Component`:
`Field`, `Reg`, `Regfile`, `Addrmap`, `Mem`, `Signal`).  `elaborate`
distinguishes only whether a definition `isinstance(..., comp.Addrmap)`. -/
inductive CompCategory where
  | field
  | reg
  | regfile
  | addrmap
  | mem
  | signal
  deriving DecidableEq, Repr

/-- Modelled from the spec: an expression/property value is either a
resolved literal or an unresolved deferred-expression node pending
evaluation (spec section 3, "Expression node"). -/
inductive ExprVal where
  | lit (n : Int)
  | unresolved (tag : Nat)
  deriving DecidableEq, Repr

/-- Modelled from the spec: the mutable elaborable state of a component
instance that the elaboration listeners act on — its property
assignments and its placement (address).  The listeners resolve
expressions and assign addresses (spec sections 4.3-4.5); they do not
rename instances or change their category. -/
structure ElabContent where
  properties : List (String × ExprVal)
  address : Option Nat
  deriving DecidableEq, Repr

/-- A component definition/instance (`component.py` is not under `src/`;
the attributes used by `compiler.py` are `type_name`, `is_instance`,
`inst_name`, plus the elaborable content mutated by the listeners). -/
structure Component where
  category : CompCategory
  type_name : String
  inst_name : Option String
  is_instance : Bool
  content : ElabContent
  deriving DecidableEq, Repr

/-- The session's message handler (`messages.MessageHandler`, not under
`src/`).  Modelled from the spec: diagnostics accumulate in a single
append-only error counter owned by the compiler session; `fatal` raises
an unwinding compile error and is modelled as the `Except.error` result.
Only the counter is relevant to `compiler.py`'s control flow. -/
structure MessageHandler where
  error_count : Nat
  deriving DecidableEq, Repr

/-- The namespace registry (`core/namespace.py`, not under `src/`).
`compiler.py` touches only its `default_property_ns_stack`, the stack of
default-property frames; a frame maps property names to values. -/
structure NamespaceRegistry where
  default_property_ns_stack : List (List (String × ExprVal))
  deriving DecidableEq, Repr

/-- The mutable state of an `RDLCompiler` session: the root namespace's
accumulated definitions (`self.root.comp_defs`, an insertion-ordered
dict, modelled as an association list in insertion order), the message
handler, and the namespace registry (`self.namespace`; `namespace` is a
Lean keyword, so the field is named `ns`). -/
structure RDLCompilerState where
  comp_defs : List (String × Component)
  msg : MessageHandler
  ns : NamespaceRegistry
  deriving DecidableEq, Repr

/-- The exceptions `elaborate`/`compile_file` can raise:
`messages.MessageHandler.fatal` raises an `RDLCompileError` carrying the
message, and `elaborate` raises Python's `NotImplementedError` for
parameter overrides. -/
inductive RDLCompileError where
  | fatal (message : String)
  | notImplementedError
  deriving DecidableEq, Repr

/-- The listeners `compiler.py` attaches to walker runs
(`core/elaborate.py` and `core/validate.py`, not under `src/`). -/
inductive ListenerKind where
  | elabExpressionsListener
  | prePlacementValidateListener
  | structuralPlacementListener
  | validateListener
  deriving DecidableEq, Repr

/-- One `walker.RDLWalker(...).walk(top_node, *listeners)` invocation:
its `skip_not_present` configuration and its ordered listeners. -/
structure WalkCall where
  skip_not_present : Bool
  listeners : List ListenerKind
  deriving DecidableEq, Repr

/-- Modelled from the spec: `walker.py` is not under `src/`.  The spec
(section 4.6) states that final validation conventionally skips
not-present instances (flag on), and `compiler.py` constructs the
validation walker as `RDLWalker()` with no argument, so the walker's
`skip_not_present` default is `true`. -/
def RDLWalker.default_skip_not_present : Bool := true

/-- Modelled from the spec: the behaviour of the three elaboration walks
(`core/elaborate.py`, `core/validate.py`, `walker.py` are not under
`src/`).  Each walk is a deterministic, synchronous traversal that
mutates the walked instance tree's elaborable content and records
diagnostics in the session error counter (spec sections 4.3-4.6, 5);
it is modelled as a pure function from the instance content and the
current error count to their updated values.  The two listeners of the
placement walk run lock-step in one traversal, hence one function. -/
structure ElabPasses where
  elabExpressions : ElabContent → Nat → ElabContent × Nat
  prePlacementAndPlacement : ElabContent → Nat → ElabContent × Nat
  validate : ElabContent → Nat → ElabContent × Nat

/-- Modelled from the spec: `node.py` is not under `src/`.  A `Node` is
an ownership-free read-only handle wrapping an elaborated instance
(spec section 3, "Node (view)"); `Node._factory(top_inst, self)` wraps
the top instance.  The back-reference to the compiler is not needed for
the claims and is omitted. -/
structure Node where
  inst : Component
  deriving DecidableEq, Repr

/-- `self.root.comp_defs[name]` / `name not in self.root.comp_defs`:
dict lookup in the root namespace's definitions. -/
def lookupDef (defs : List (String × Component)) (name : String) :
    Option Component :=
  (defs.find? (fun p => p.1 == name)).map Prod.snd

/-- `for comp_def in reversed(self.root.comp_defs.values()): if
isinstance(comp_def, comp.Addrmap): ... break` — the first addrmap in
reverse insertion order, i.e. the most recently defined addrmap. -/
def lastAddrmapDef (defs : List (String × Component)) : Option Component :=
  (defs.map Prod.snd).reverse.find?
    (fun c => c.category == CompCategory.addrmap)

/-- `compiler.py` lines 139-173: the part of `elaborate` after the
top-level definition has been selected (`top_def`, `top_def_name`).
Creates the top instance as a deep copy of the definition (a value copy
here: the instance and the definition library share no state), sets
`is_instance`/`inst_name`, raises `NotImplementedError` on a non-empty
parameter map, wraps the instance in a Node, runs the three walks, and
checks the error counter once at the end.  Returns the result (the Node
or the raised error), the post-call session state, and the trace of
walk invocations performed. -/
def elaborateFrom (P : ElabPasses) (st : RDLCompilerState)
    (top_def : Component) (top_def_name : String)
    (inst_name : Option String) (parameters : List (String × Int)) :
    Except RDLCompileError Node × RDLCompilerState × List WalkCall :=
  -- Create a top-level instance
  let top_inst : Component :=
    { top_def with
        is_instance := true,
        inst_name := some (inst_name.getD top_def_name) }
  -- Override parameters as needed
  if parameters.length ≠ 0 then
    (Except.error RDLCompileError.notImplementedError, st, [])
  else
    -- top_node = Node._factory(top_inst, self)
    -- Resolve all expressions
    let r1 := P.elabExpressions top_inst.content st.msg.error_count
    -- Resolve address and field placement
    let r2 := P.prePlacementAndPlacement r1.1 r1.2
    -- Validate design
    let r3 := P.validate r2.1 r2.2
    let trace : List WalkCall :=
      [ ⟨false, [ListenerKind.elabExpressionsListener]⟩,
        ⟨false, [ListenerKind.prePlacementValidateListener,
                 ListenerKind.structuralPlacementListener]⟩,
        ⟨RDLWalker.default_skip_not_present,
         [ListenerKind.validateListener]⟩ ]
    let st' : RDLCompilerState := { st with msg := ⟨r3.2⟩ }
    if r3.2 ≠ 0 then
      (Except.error
        (RDLCompileError.fatal "Elaborate aborted due to previous errors"),
       st', trace)
    else
      (Except.ok ⟨{ top_inst with content := r3.1 }⟩, st', trace)

/-- `RDLCompiler.elaborate` (`compiler.py` lines 85-173).  `parameters
is None` is normalized to the empty map; the top-level definition is
then selected: an explicit `top_def_name` must be bound in the root
namespace and be an addrmap, otherwise the last-defined addrmap is
chosen; failure raises a fatal `RDLCompileError` with the source's
message. -/
def elaborate (P : ElabPasses) (st : RDLCompilerState)
    (top_def_name : Option String) (inst_name : Option String)
    (parameters : Option (List (String × Int))) :
    Except RDLCompileError Node × RDLCompilerState × List WalkCall :=
  let params := parameters.getD []
  match top_def_name with
  | some name =>
    match lookupDef st.comp_defs name with
    | none =>
      (Except.error (RDLCompileError.fatal
        ("Elaboration target '" ++ name ++ "' not found")), st, [])
    | some top_def =>
      if top_def.category ≠ CompCategory.addrmap then
        (Except.error (RDLCompileError.fatal
          ("Elaboration target '" ++ name ++
           "' is not an 'addrmap' component")), st, [])
      else
        elaborateFrom P st top_def name inst_name params
  | none =>
    match lastAddrmapDef st.comp_defs with
    | none =>
      (Except.error (RDLCompileError.fatal
        "Could not find any 'addrmap' components to elaborate"), st, [])
    | some top_def =>
      elaborateFrom P st top_def top_def.type_name inst_name params

/-- The fixed trace of walk invocations `elaborate` performs once it
reaches the walking stage (`compiler.py` lines 154-168). -/
def fullElabTrace : List WalkCall :=
  [ ⟨false, [ListenerKind.elabExpressionsListener]⟩,
    ⟨false, [ListenerKind.prePlacementValidateListener,
             ListenerKind.structuralPlacementListener]⟩,
    ⟨RDLWalker.default_skip_not_present,
     [ListenerKind.validateListener]⟩ ]

/-- `RDLCompiler.compile_file` (`compiler.py` lines 42-83).  The ANTLR
front end and `RootVisitor` are not under `src/`:
* Modelled from the spec: parsing a file makes the attached error
  listeners record that file's syntax errors in the session message
  handler, modelled as the count `syntax_error_count` added to
  `error_count`.
* Modelled from the spec: `self.visitor.visit(parsed_tree)` traverses
  the parse tree constructing definitions; it may add definitions,
  record semantic errors and push default-property frames — modelled as
  an arbitrary state transformer `visit`.
After the visitor, the default-property stack is reset to a single
empty frame, and the error counter is checked. -/
def compile_file (syntax_error_count : Nat)
    (visit : RDLCompilerState → RDLCompilerState)
    (st : RDLCompilerState) :
    Except RDLCompileError Unit × RDLCompilerState :=
  -- Run Antlr parser on input
  let st1 : RDLCompilerState :=
    { st with msg := ⟨st.msg.error_count + syntax_error_count⟩ }
  if st1.msg.error_count ≠ 0 then
    (Except.error
      (RDLCompileError.fatal "Parse aborted due to previous errors"), st1)
  else
    -- Traverse parse tree with RootVisitor
    let st2 := visit st1
    -- Reset default property assignments from namespace.
    let st3 : RDLCompilerState :=
      { st2 with ns := ⟨[[]]⟩ }
    if st3.msg.error_count ≠ 0 then
      (Except.error
        (RDLCompileError.fatal "Compile aborted due to previous errors"), st3)
    else
      (Except.ok (), st3)

/-! Concrete fixtures used to evaluate the definitions on closed inputs. -/

/-- Walk behaviour that leaves content and error count unchanged. -/
def idPasses : ElabPasses :=
  ⟨fun c e => (c, e), fun c e => (c, e), fun c e => (c, e)⟩

/-- Walk behaviour where the expression-resolution walk records one
diagnostic (sets the error count to 1) and the later walks add none. -/
def errExprPasses : ElabPasses :=
  ⟨fun c _ => (c, 1), fun c e => (c, e), fun c e => (c, e)⟩

/-- A reg-category definition (not an addrmap). -/
def regDef : Component :=
  ⟨CompCategory.reg, "r_t", none, false, ⟨[("regwidth", ExprVal.lit 32)], none⟩⟩

/-- An addrmap definition, defined before `amap2`. -/
def amap1 : Component :=
  ⟨CompCategory.addrmap, "a1_t", none, false, ⟨[], none⟩⟩

/-- The most recently defined addrmap definition in `st0`. -/
def amap2 : Component :=
  ⟨CompCategory.addrmap, "a2_t", none, false,
   ⟨[("x", ExprVal.unresolved 0)], none⟩⟩

/-- A session whose root namespace holds, in definition order, a reg and
two addrmaps, with no outstanding errors. -/
def st0 : RDLCompilerState :=
  ⟨[("r_t", regDef), ("a1_t", amap1), ("a2_t", amap2)], ⟨0⟩, ⟨[[]]⟩⟩

/-- A fresh session with no definitions. -/
def stEmpty : RDLCompilerState := ⟨[], ⟨0⟩, ⟨[[]]⟩⟩

/-- A session identical to `st0` except for a non-empty default-property
stack left over in the namespace registry. -/
def stAltNs : RDLCompilerState :=
  ⟨st0.comp_defs, st0.msg, ⟨[[("dp", ExprVal.lit 7)], []]⟩⟩

/-- A visitor behaviour that pushes a default-property frame while
constructing definitions (and records no errors). -/
def visitPush (s : RDLCompilerState) : RDLCompilerState :=
  { s with ns := ⟨[("dp", ExprVal.lit 1)] :: s.ns.default_property_ns_stack⟩ }

/-- A visitor behaviour that records one semantic error during tree
construction. -/
def visitErr (s : RDLCompilerState) : RDLCompilerState :=
  { s with msg := ⟨s.msg.error_count + 1⟩ }

/-- The Node produced by elaborating `st0` with target `a2_t` and
instance name override `mytop` under `idPasses`. -/
def nodeW9 : Node :=
  ⟨{ amap2 with is_instance := true, inst_name := some "mytop" }⟩

/-! Theorems. -/

/-- `find?` returns the head of the filtered list. -/
theorem find?_eq_head?_filter {α : Type} (p : α → Bool) (l : List α) :
    l.find? p = (l.filter p).head? := by
  induction l with
  | nil => rfl
  | cons a l ih =>
    by_cases h : p a
    · rw [List.find?_cons_of_pos _ h, List.filter_cons_of_pos h,
          List.head?_cons]
    · rw [List.find?_cons_of_neg _ h, List.filter_cons_of_neg h, ih]

/-- The reverse-order search in `elaborate`'s inferred-target branch
picks exactly the last addrmap in definition order. -/
theorem lastAddrmapDef_eq_getLast?_filter (defs : List (String × Component)) :
    lastAddrmapDef defs =
      ((defs.map Prod.snd).filter
        (fun c => c.category == CompCategory.addrmap)).getLast? := by
  unfold lastAddrmapDef
  rw [find?_eq_head?_filter, List.filter_reverse, List.head?_reverse]

/-- Once the walking stage of `elaborate` is reached, the walk trace is
either empty (the call aborted on the parameter check before any walk)
or exactly the three fixed walk invocations. -/
theorem elaborateFrom_trace (P : ElabPasses) (st : RDLCompilerState)
    (d : Component) (tn : String) (iname : Option String)
    (params : List (String × Int)) :
    (elaborateFrom P st d tn iname params).2.2 = []
    ∨ (elaborateFrom P st d tn iname params).2.2 = fullElabTrace := by
  simp only [elaborateFrom]
  by_cases hp : params.length ≠ 0
  · rw [if_pos hp]
    left
    rfl
  · rw [if_neg hp]
    split
    · right; rfl
    · right; rfl

/-- `elaborateFrom` never changes the definition library: the post-call
state differs from the pre-call state at most in the message handler. -/
theorem elaborateFrom_preserves (P : ElabPasses) (st : RDLCompilerState)
    (d : Component) (tn : String) (iname : Option String)
    (params : List (String × Int)) :
    (elaborateFrom P st d tn iname params).2.1.comp_defs = st.comp_defs
    ∧ (elaborateFrom P st d tn iname params).2.1.ns = st.ns := by
  simp only [elaborateFrom]
  by_cases hp : params.length ≠ 0
  · rw [if_pos hp]
    exact ⟨rfl, rfl⟩
  · rw [if_neg hp]
    split
    · exact ⟨rfl, rfl⟩
    · exact ⟨rfl, rfl⟩

/-- Once the walks have run, the error counter is checked exactly once:
the final count decides between the fatal result and the Node result. -/
theorem elaborateFrom_final_check (P : ElabPasses) (st : RDLCompilerState)
    (d : Component) (tn : String) (iname : Option String)
    (params : List (String × Int))
    (h : (elaborateFrom P st d tn iname params).2.2 ≠ []) :
    (elaborateFrom P st d tn iname params).2.2 = fullElabTrace
    ∧ ((elaborateFrom P st d tn iname params).2.1.msg.error_count ≠ 0 →
        (elaborateFrom P st d tn iname params).1 =
          Except.error (RDLCompileError.fatal
            "Elaborate aborted due to previous errors"))
    ∧ ((elaborateFrom P st d tn iname params).2.1.msg.error_count = 0 →
        ∃ node, (elaborateFrom P st d tn iname params).1 =
          Except.ok node) := by
  simp only [elaborateFrom] at h ⊢
  by_cases hp : params.length ≠ 0
  · rw [if_pos hp] at h
    exact absurd rfl h
  · rw [if_neg hp]
    split
    · next he =>
      exact ⟨rfl, fun _ => rfl, fun h0 => absurd h0 he⟩
    · next he =>
      exact ⟨rfl, fun hne => absurd hne he, fun _ => ⟨_, rfl⟩⟩

/-- With an empty parameter map, `elaborateFrom` never raises
`NotImplementedError`. -/
theorem elaborateFrom_empty_params_not_notimpl (P : ElabPasses)
    (st : RDLCompilerState) (d : Component) (tn : String)
    (iname : Option String) :
    (elaborateFrom P st d tn iname []).1 ≠
      Except.error RDLCompileError.notImplementedError := by
  simp only [elaborateFrom]
  rw [if_neg (by simp)]
  split
  · simp
  · simp

/-- Claim C1: for every call to `elaborate`, if `top_def_name` is given
and not bound in the root namespace, or bound to a non-addrmap
definition, elaboration fails fatally; if `top_def_name` is omitted,
the most-recently-defined addrmap definition is chosen as the target,
and elaboration fails fatally if no addrmap definition exists. -/
theorem elaborate_top_target_selection (P : ElabPasses)
    (st : RDLCompilerState) (iname : Option String)
    (params : Option (List (String × Int))) :
    (∀ name, lookupDef st.comp_defs name = none →
      elaborate P st (some name) iname params =
        (Except.error (RDLCompileError.fatal
          ("Elaboration target '" ++ name ++ "' not found")), st, []))
    ∧ (∀ name d, lookupDef st.comp_defs name = some d →
        d.category ≠ CompCategory.addrmap →
      elaborate P st (some name) iname params =
        (Except.error (RDLCompileError.fatal
          ("Elaboration target '" ++ name ++
           "' is not an 'addrmap' component")), st, []))
    ∧ (∀ d, lastAddrmapDef st.comp_defs = some d →
      elaborate P st none iname params =
        elaborateFrom P st d d.type_name iname (params.getD []))
    ∧ (lastAddrmapDef st.comp_defs = none →
      elaborate P st none iname params =
        (Except.error (RDLCompileError.fatal
          "Could not find any 'addrmap' components to elaborate"), st, []))
    ∧ lastAddrmapDef st.comp_defs =
        ((st.comp_defs.map Prod.snd).filter
          (fun c => c.category == CompCategory.addrmap)).getLast? := by
  refine ⟨?_, ?_, ?_, ?_, lastAddrmapDef_eq_getLast?_filter _⟩
  · intro name h
    simp [elaborate, h]
  · intro name d h hc
    simp only [elaborate, h]
    rw [if_pos hc]
  · intro d h
    simp [elaborate, h]
  · intro h
    simp [elaborate, h]

/-- Claim C1 witness: in the concrete session `st0`, a missing name and
a reg-category name fail fatally, and the omitted-name call picks
`amap2`, the last-defined addrmap. -/
theorem elaborate_top_target_selection_witness :
    (elaborate idPasses st0 (some "zzz") none none =
      (Except.error (RDLCompileError.fatal
        ("Elaboration target '" ++ "zzz" ++ "' not found")), st0, []))
    ∧ (elaborate idPasses st0 (some "r_t") none none =
      (Except.error (RDLCompileError.fatal
        ("Elaboration target '" ++ "r_t" ++
         "' is not an 'addrmap' component")), st0, []))
    ∧ (elaborate idPasses st0 none none none =
        elaborateFrom idPasses st0 amap2 amap2.type_name none
          ((none : Option (List (String × Int))).getD [])) :=
  ⟨(elaborate_top_target_selection idPasses st0 none none).1 "zzz" rfl,
   (elaborate_top_target_selection idPasses st0 none none).2.1 "r_t" regDef
     rfl (by decide),
   (elaborate_top_target_selection idPasses st0 none none).2.2.1 amap2 rfl⟩

/-- Claim C2: every call to `elaborate` performs either no walk (it
aborted before the walking stage) or exactly this fixed structure:
a first walk with the expression-resolution listener alone, a second
walk with the pre-placement-validation and structural-placement
listeners attached together, and a third walk with the validation
listener alone; the first two walks are configured with
`skip_not_present` off and the third with `skip_not_present` on. -/
theorem elaborate_walk_structure (P : ElabPasses) (st : RDLCompilerState)
    (tname iname : Option String)
    (params : Option (List (String × Int))) :
    (elaborate P st tname iname params).2.2 = []
    ∨ (elaborate P st tname iname params).2.2 =
      [ WalkCall.mk false [ListenerKind.elabExpressionsListener],
        WalkCall.mk false [ListenerKind.prePlacementValidateListener,
                           ListenerKind.structuralPlacementListener],
        WalkCall.mk true [ListenerKind.validateListener] ] := by
  rcases tname with _ | name
  · rcases hl : lastAddrmapDef st.comp_defs with _ | d
    · left
      simp [elaborate, hl]
    · simp only [elaborate, hl]
      exact elaborateFrom_trace P st d d.type_name iname (params.getD [])
  · rcases hl : lookupDef st.comp_defs name with _ | d
    · left
      simp [elaborate, hl]
    · simp only [elaborate, hl]
      by_cases hc : d.category ≠ CompCategory.addrmap
      · rw [if_pos hc]
        left
        rfl
      · rw [if_neg hc]
        exact elaborateFrom_trace P st d name iname (params.getD [])

/-- Claim C3 counterexample: in session `st0` (no outstanding errors),
with walk behaviour `errExprPasses` in which the first sub-pass
(expression resolution) records a diagnostic, the later sub-passes
still execute — the walk trace contains all three walks — and the
pipeline is aborted only by the single error-counter check after the
last walk, contradicting the claim that a nonzero count recorded by an
earlier sub-pass aborts before the next sub-pass runs. -/
theorem elaborate_midpass_check_counterexample :
    (errExprPasses.elabExpressions amap2.content st0.msg.error_count).2 ≠ 0
    ∧ (elaborate errExprPasses st0 none none none).2.2 = fullElabTrace
    ∧ (elaborate errExprPasses st0 none none none).2.1.msg.error_count ≠ 0
    ∧ (elaborate errExprPasses st0 none none none).1 =
        Except.error (RDLCompileError.fatal
          "Elaborate aborted due to previous errors") :=
  ⟨by decide, rfl, by decide, rfl⟩

/-- Claim C3 as amended: `elaborate` checks the session error counter
exactly once, after all three walks have run; whenever the walking
stage is reached, all three sub-passes execute unconditionally (even if
an earlier sub-pass recorded errors), and the final count alone decides
between the fatal `CompileError` and the successful Node result. -/
theorem elaborate_single_final_error_check (P : ElabPasses)
    (st : RDLCompilerState) (tname iname : Option String)
    (params : Option (List (String × Int)))
    (h : (elaborate P st tname iname params).2.2 ≠ []) :
    (elaborate P st tname iname params).2.2 = fullElabTrace
    ∧ ((elaborate P st tname iname params).2.1.msg.error_count ≠ 0 →
        (elaborate P st tname iname params).1 =
          Except.error (RDLCompileError.fatal
            "Elaborate aborted due to previous errors"))
    ∧ ((elaborate P st tname iname params).2.1.msg.error_count = 0 →
        ∃ node, (elaborate P st tname iname params).1 =
          Except.ok node) := by
  rcases tname with _ | name
  · rcases hl : lastAddrmapDef st.comp_defs with _ | d
    · exfalso
      apply h
      simp [elaborate, hl]
    · simp only [elaborate, hl] at h ⊢
      exact elaborateFrom_final_check P st d d.type_name iname _ h
  · rcases hl : lookupDef st.comp_defs name with _ | d
    · exfalso
      apply h
      simp [elaborate, hl]
    · simp only [elaborate, hl] at h ⊢
      by_cases hc : d.category ≠ CompCategory.addrmap
      · rw [if_pos hc] at h
        exact absurd rfl h
      · rw [if_neg hc] at h ⊢
        exact elaborateFrom_final_check P st d name iname _ h

/-- Claim C3 amended witness: the concrete failing run of the
counterexample reaches the walking stage, so the amended theorem
applies to it and yields the fatal result from the single final
check. -/
theorem elaborate_single_final_error_check_witness :
    (elaborate errExprPasses st0 none none none).2.2 ≠ []
    ∧ (elaborate errExprPasses st0 none none none).1 =
        Except.error (RDLCompileError.fatal
          "Elaborate aborted due to previous errors") :=
  ⟨by decide,
   (elaborate_single_final_error_check errExprPasses st0 none none none
     (by decide)).2.1 (by decide)⟩

/-- Claim C4: `elaborate` leaves every definition in the definition
library unchanged: the top instance is a (deep) copy of the chosen
definition, the walks act on that copy only, and the post-call session
state carries exactly the pre-call `comp_defs` (and namespace
registry); only the message handler may change. -/
theorem elaborate_preserves_comp_defs (P : ElabPasses)
    (st : RDLCompilerState) (tname iname : Option String)
    (params : Option (List (String × Int))) :
    (elaborate P st tname iname params).2.1.comp_defs = st.comp_defs
    ∧ (elaborate P st tname iname params).2.1.ns = st.ns := by
  rcases tname with _ | name
  · rcases hl : lastAddrmapDef st.comp_defs with _ | d
    · simp [elaborate, hl]
    · simp only [elaborate, hl]
      exact elaborateFrom_preserves P st d d.type_name iname (params.getD [])
  · rcases hl : lookupDef st.comp_defs name with _ | d
    · simp [elaborate, hl]
    · simp only [elaborate, hl]
      by_cases hc : d.category ≠ CompCategory.addrmap
      · rw [if_pos hc]
        exact ⟨rfl, rfl⟩
      · rw [if_neg hc]
        exact elaborateFrom_preserves P st d name iname (params.getD [])

/-- Claim C10: calling `elaborate` with `parameters = None` behaves
identically to calling it with an empty parameters map, and the
`NotImplementedError` path is never taken for it. -/
theorem elaborate_none_params_eq_empty (P : ElabPasses)
    (st : RDLCompilerState) (tname iname : Option String) :
    elaborate P st tname iname none = elaborate P st tname iname (some [])
    ∧ (elaborate P st tname iname none).1 ≠
        Except.error RDLCompileError.notImplementedError := by
  refine ⟨rfl, ?_⟩
  rcases tname with _ | name
  · rcases hl : lastAddrmapDef st.comp_defs with _ | d
    · simp [elaborate, hl]
    · simp only [elaborate, hl]
      exact elaborateFrom_empty_params_not_notimpl P st d d.type_name iname
  · rcases hl : lookupDef st.comp_defs name with _ | d
    · simp [elaborate, hl]
    · simp only [elaborate, hl]
      by_cases hc : d.category ≠ CompCategory.addrmap
      · rw [if_pos hc]
        simp
      · rw [if_neg hc]
        exact elaborateFrom_empty_params_not_notimpl P st d name iname

/-- With a non-empty parameter map, `elaborateFrom` raises
`NotImplementedError` before performing any walk. -/
theorem elaborateFrom_nonempty_params (P : ElabPasses)
    (st : RDLCompilerState) (d : Component) (tn : String)
    (iname : Option String) (params : List (String × Int))
    (hp : params ≠ []) :
    elaborateFrom P st d tn iname params =
      (Except.error RDLCompileError.notImplementedError, st, []) := by
  simp only [elaborateFrom]
  rw [if_pos (fun h => hp (List.length_eq_zero.mp h))]

/-- `elaborateFrom` reads nothing from the namespace registry: two
states agreeing on definitions and message handler yield the same
result, trace, and final message handler. -/
theorem elaborateFrom_msg_only (P : ElabPasses)
    (d : List (String × Component)) (m : MessageHandler)
    (n1 n2 : NamespaceRegistry) (td : Component) (tn : String)
    (iname : Option String) (params : List (String × Int)) :
    (elaborateFrom P ⟨d, m, n1⟩ td tn iname params).1 =
      (elaborateFrom P ⟨d, m, n2⟩ td tn iname params).1
    ∧ (elaborateFrom P ⟨d, m, n1⟩ td tn iname params).2.2 =
      (elaborateFrom P ⟨d, m, n2⟩ td tn iname params).2.2
    ∧ (elaborateFrom P ⟨d, m, n1⟩ td tn iname params).2.1.msg =
      (elaborateFrom P ⟨d, m, n2⟩ td tn iname params).2.1.msg := by
  simp only [elaborateFrom]
  by_cases hp : params.length ≠ 0
  · rw [if_pos hp, if_pos hp]
    exact ⟨rfl, rfl, rfl⟩
  · rw [if_neg hp, if_neg hp]
    refine ⟨?_, ?_, ?_⟩ <;> (split <;> rfl)

/-- A successful `elaborateFrom` returns the Node wrapping the top
instance: the copied definition with `is_instance` set and `inst_name`
set to the override or the target name. -/
theorem elaborateFrom_ok_inst (P : ElabPasses) (st : RDLCompilerState)
    (d : Component) (tn : String) (iname : Option String)
    (params : List (String × Int)) (node : Node)
    (stf : RDLCompilerState) (tr : List WalkCall)
    (h : elaborateFrom P st d tn iname params = (Except.ok node, stf, tr)) :
    node.inst.is_instance = true
    ∧ node.inst.inst_name = some (iname.getD tn) := by
  simp only [elaborateFrom] at h
  by_cases hp : params.length ≠ 0
  · rw [if_pos hp, Prod.mk.injEq] at h
    exact Except.noConfusion h.1
  · rw [if_neg hp] at h
    split at h
    · rw [Prod.mk.injEq] at h
      exact Except.noConfusion h.1
    · rw [Prod.mk.injEq] at h
      obtain ⟨h1, -⟩ := h
      injection h1 with h2
      subst h2
      exact ⟨rfl, rfl⟩

/-- Claim C5: `compile_file` resets the default-property stack to a
single empty frame once the construction phase has run (so defaults set
while compiling one unit are invisible to the next unit); on the
parse-abort path the visitor never runs and the session is unchanged
except for the recorded syntax errors. -/
theorem compile_file_resets_default_property_stack (sec : Nat)
    (visit : RDLCompilerState → RDLCompilerState) (st : RDLCompilerState) :
    (st.msg.error_count + sec = 0 →
      ((compile_file sec visit st).2).ns.default_property_ns_stack = [[]])
    ∧ (st.msg.error_count + sec ≠ 0 →
      (compile_file sec visit st).2 =
        { st with msg := ⟨st.msg.error_count + sec⟩ }) := by
  constructor
  · intro h
    simp only [compile_file]
    rw [if_neg (fun hne => hne h)]
    split
    · rfl
    · rfl
  · intro h
    simp only [compile_file]
    rw [if_pos h]

/-- Claim C5 witness: compiling a unit whose construction pushes a
default-property frame still ends with the singleton empty stack, and a
parse-aborted unit leaves the session unchanged but for the counter. -/
theorem compile_file_resets_default_property_stack_witness :
    (st0.msg.error_count + 0 = 0 ∧
      ((compile_file 0 visitPush st0).2).ns.default_property_ns_stack = [[]])
    ∧ (st0.msg.error_count + 2 ≠ 0 ∧
      (compile_file 2 visitPush st0).2 =
        { st0 with msg := ⟨st0.msg.error_count + 2⟩ }) :=
  ⟨⟨by decide,
    (compile_file_resets_default_property_stack 0 visitPush st0).1 (by decide)⟩,
   ⟨by decide,
    (compile_file_resets_default_property_stack 2 visitPush st0).2 (by decide)⟩⟩

/-- Claim C6 counterexample: a call with a non-empty parameters map and
an unbound `top_def_name` fails with the fatal not-found error, not
with `NotImplementedError` — the claim does not hold for every call
with a non-empty parameters map. -/
theorem elaborate_nonempty_params_counterexample :
    (elaborate idPasses stEmpty (some "top") none
        (some [("N", (1 : Int))])).1 =
      Except.error (RDLCompileError.fatal
        ("Elaboration target '" ++ "top" ++ "' not found"))
    ∧ (elaborate idPasses stEmpty (some "top") none
        (some [("N", (1 : Int))])).1 ≠
      Except.error RDLCompileError.notImplementedError := by
  refine ⟨rfl, ?_⟩
  intro hcon
  have h1 : (elaborate idPasses stEmpty (some "top") none
      (some [("N", (1 : Int))])).1 =
      Except.error (RDLCompileError.fatal
        ("Elaboration target '" ++ "top" ++ "' not found")) := rfl
  rw [h1] at hcon
  injection hcon with h2
  exact RDLCompileError.noConfusion h2

/-- Claim C6 as amended: for every call to `elaborate` with a non-empty
parameters map in which top-target selection succeeds (the explicit
name is bound to an addrmap, or a last-defined addrmap exists), the
call fails with `NotImplementedError`, and no elaboration walk runs
(the walk trace is empty). -/
theorem elaborate_nonempty_params_notimplemented (P : ElabPasses)
    (st : RDLCompilerState) (iname : Option String)
    (params : List (String × Int)) (hp : params ≠ []) :
    (∀ name d, lookupDef st.comp_defs name = some d →
        d.category = CompCategory.addrmap →
      elaborate P st (some name) iname (some params) =
        (Except.error RDLCompileError.notImplementedError, st, []))
    ∧ (∀ d, lastAddrmapDef st.comp_defs = some d →
      elaborate P st none iname (some params) =
        (Except.error RDLCompileError.notImplementedError, st, [])) := by
  constructor
  · intro name d hl hc
    simp only [elaborate, hl]
    rw [if_neg (not_not_intro hc)]
    exact elaborateFrom_nonempty_params P st d name iname params hp
  · intro d hl
    simp only [elaborate, hl]
    exact elaborateFrom_nonempty_params P st d d.type_name iname params hp

/-- Claim C6 amended witness: with the addrmap `a2_t` bound in `st0`
and a one-entry parameters map, the call raises `NotImplementedError`
with an empty walk trace. -/
theorem elaborate_nonempty_params_notimplemented_witness :
    ([("N", (1 : Int))] ≠ ([] : List (String × Int)))
    ∧ elaborate idPasses st0 (some "a2_t") none
        (some [("N", (1 : Int))]) =
      (Except.error RDLCompileError.notImplementedError, st0, []) :=
  ⟨by decide,
   (elaborate_nonempty_params_notimplemented idPasses st0 none
     [("N", (1 : Int))] (by decide)).1 "a2_t" amap2 rfl rfl⟩

/-- Claim C7: if the front end reported syntax errors, `compile_file`
fails fatally before the parse tree is traversed (the result does not
depend on the visitor at all); if semantic errors were recorded during
tree construction, it fails fatally before returning. -/
theorem compile_file_error_gates (sec : Nat)
    (visit : RDLCompilerState → RDLCompilerState) (st : RDLCompilerState) :
    (sec ≠ 0 →
      (compile_file sec visit st).1 =
        Except.error (RDLCompileError.fatal
          "Parse aborted due to previous errors")
      ∧ ∀ visit2, compile_file sec visit st = compile_file sec visit2 st)
    ∧ (st.msg.error_count + sec = 0 →
       (visit { st with msg := ⟨st.msg.error_count + sec⟩ }).msg.error_count
         ≠ 0 →
      (compile_file sec visit st).1 =
        Except.error (RDLCompileError.fatal
          "Compile aborted due to previous errors")) := by
  constructor
  · intro hs
    have hc : st.msg.error_count + sec ≠ 0 := by omega
    constructor
    · simp only [compile_file]
      rw [if_pos hc]
    · intro visit2
      simp only [compile_file]
      rw [if_pos hc, if_pos hc]
  · intro h0 hv
    simp only [compile_file]
    rw [if_neg (fun hne => hne h0), if_pos hv]

/-- Claim C7 witness: one syntax error aborts before construction; a
construction-time semantic error aborts before returning. -/
theorem compile_file_error_gates_witness :
    ((1 : Nat) ≠ 0 ∧
      (compile_file 1 visitPush st0).1 =
        Except.error (RDLCompileError.fatal
          "Parse aborted due to previous errors"))
    ∧ (st0.msg.error_count + 0 = 0 ∧
      (compile_file 0 visitErr st0).1 =
        Except.error (RDLCompileError.fatal
          "Compile aborted due to previous errors")) :=
  ⟨⟨by decide, ((compile_file_error_gates 1 visitPush st0).1 (by decide)).1⟩,
   ⟨by decide,
    (compile_file_error_gates 0 visitErr st0).2 (by decide) (by decide)⟩⟩

/-- Claim C8: `elaborate` is a deterministic function of the session's
accumulated definitions and diagnostic state — two sessions agreeing on
those (whatever their namespace registries hold) produce the same
result, the same elaborated Node, the same walk trace, and the same
final diagnostic state. -/
theorem elaborate_deterministic (P : ElabPasses)
    (s1 s2 : RDLCompilerState) (tname iname : Option String)
    (params : Option (List (String × Int)))
    (hdefs : s1.comp_defs = s2.comp_defs) (hmsg : s1.msg = s2.msg) :
    (elaborate P s1 tname iname params).1 =
      (elaborate P s2 tname iname params).1
    ∧ (elaborate P s1 tname iname params).2.2 =
      (elaborate P s2 tname iname params).2.2
    ∧ (elaborate P s1 tname iname params).2.1.msg =
      (elaborate P s2 tname iname params).2.1.msg := by
  obtain ⟨d1, m1, n1⟩ := s1
  obtain ⟨d2, m2, n2⟩ := s2
  simp only at hdefs hmsg
  subst hdefs
  subst hmsg
  rcases tname with _ | name
  · rcases hl : lastAddrmapDef d1 with _ | d
    · simp [elaborate, hl]
    · simp only [elaborate, hl]
      exact elaborateFrom_msg_only P d1 m1 n1 n2 d d.type_name iname _
  · rcases hl : lookupDef d1 name with _ | d
    · simp [elaborate, hl]
    · simp only [elaborate, hl]
      by_cases hc : d.category ≠ CompCategory.addrmap
      · rw [if_pos hc, if_pos hc]
        exact ⟨rfl, rfl, rfl⟩
      · rw [if_neg hc, if_neg hc]
        exact elaborateFrom_msg_only P d1 m1 n1 n2 d name iname _

/-- Claim C8 witness: `st0` and `stAltNs` agree on definitions and
diagnostics but differ in their namespace registries; elaborating both
gives the same result, trace and final diagnostics. -/
theorem elaborate_deterministic_witness :
    (elaborate idPasses st0 none none none).1 =
      (elaborate idPasses stAltNs none none none).1
    ∧ (elaborate idPasses st0 none none none).2.2 =
      (elaborate idPasses stAltNs none none none).2.2
    ∧ (elaborate idPasses st0 none none none).2.1.msg =
      (elaborate idPasses stAltNs none none none).2.1.msg :=
  elaborate_deterministic idPasses st0 stAltNs none none none rfl rfl

/-- Claim C9: a successful `elaborate` returns a Node whose root
instance has `is_instance` true and whose instance name is the supplied
`inst_name`, or else the resolved top definition name (the explicit
`top_def_name`, or the inferred last addrmap's type name). -/
theorem elaborate_root_inst_identity (P : ElabPasses)
    (st : RDLCompilerState) (iname : Option String)
    (params : Option (List (String × Int))) (node : Node)
    (stf : RDLCompilerState) (tr : List WalkCall) :
    (∀ name,
      elaborate P st (some name) iname params = (Except.ok node, stf, tr) →
        node.inst.is_instance = true
        ∧ node.inst.inst_name = some (iname.getD name))
    ∧ (∀ d, lastAddrmapDef st.comp_defs = some d →
      elaborate P st none iname params = (Except.ok node, stf, tr) →
        node.inst.is_instance = true
        ∧ node.inst.inst_name = some (iname.getD d.type_name)) := by
  constructor
  · intro name h
    rcases hl : lookupDef st.comp_defs name with _ | d
    · simp only [elaborate, hl, Prod.mk.injEq] at h
      exact Except.noConfusion h.1
    · simp only [elaborate, hl] at h
      by_cases hc : d.category ≠ CompCategory.addrmap
      · rw [if_pos hc, Prod.mk.injEq] at h
        exact Except.noConfusion h.1
      · rw [if_neg hc] at h
        exact elaborateFrom_ok_inst P st d name iname _ node stf tr h
  · intro d hl h
    simp only [elaborate, hl] at h
    exact elaborateFrom_ok_inst P st d d.type_name iname _ node stf tr h

/-- Claim C9 witness: elaborating `st0` with explicit target `a2_t` and
instance-name override `mytop` succeeds, and the returned root instance
is an instance named `mytop`. -/
theorem elaborate_root_inst_identity_witness :
    nodeW9.inst.is_instance = true
    ∧ nodeW9.inst.inst_name = some "mytop" :=
  (elaborate_root_inst_identity idPasses st0 (some "mytop") none nodeW9
    st0 fullElabTrace).1 "a2_t" rfl

end SystemRDL
